import Mathlib

/-!
Verification of the novo_muta trio-model engine against its specification.

The development shallowly embeds, over exact rationals:
* the simulation-probability utility (`counts_probability.cc`),
* the EM driver loop (`bam_driver.cc`), with the E-step, M-step and
  tolerance-comparison operations (whose bodies live in translation units
  absent from the source tree) taken as abstract components,
* the TrioModel layers (priors, germline, somatic, sequencing likelihood,
  tree peel), modelled from the specification because `trio_model.cc` is not
  part of the source tree (only `trio_model.h` is).
-/

namespace NovoMuta

/-! ### Simulation-probability utility (`counts_probability.cc`) -/

/-- A whitespace-separated field of one input line: either a token that parses
as an integer, or a non-numeric token. -/
inductive Token where
  | num (z : ℤ)
  | bad
deriving DecidableEq, Repr

/-- Extraction of the three leading integers of a line with C++11 stream
semantics: extraction stops at the first missing or non-numeric field, the
fail state is sticky, and every failed extraction writes 0 to its target. -/
def parseLine : List Token → ℤ × ℤ × ℤ
  | Token.num a :: Token.num b :: Token.num c :: _ => (a, b, c)
  | Token.num a :: Token.num b :: _ => (a, b, 0)
  | Token.num a :: _ => (a, 0, 0)
  | _ => (0, 0, 0)

/-- The per-row empirical probability of `counts_probability.cc`:
`has_mutation_total / (has_mutation_total + has_no_mutation_total)`,
defined as 0 when the row total is 0. -/
def countsProbability (m n : ℤ) : ℚ :=
  if m + n = 0 then 0 else (m : ℚ) / ((m : ℚ) + (n : ℚ))

/-- Processing of one input line: extract index, count-with-mutation and
count-without-mutation, then form the empirical probability. -/
def processLine (ts : List Token) : ℚ :=
  countsProbability (parseLine ts).2.1 (parseLine ts).2.2

/-- The whole-file loop of `counts_probability.cc`: one probability is pushed
per input line, in input order. -/
def processFile (lines : List (List Token)) : List ℚ :=
  lines.map processLine

/-- A line parses cleanly when its first three fields are numeric. -/
def lineParses : List Token → Bool
  | Token.num _ :: Token.num _ :: Token.num _ :: _ => true
  | _ => false

/-- A line whose very first extraction already fails. -/
def firstFieldFails : List Token → Bool
  | Token.num _ :: _ => false
  | _ => true

end NovoMuta

namespace NovoMuta

/-! ### EM driver loop (`bam_driver.cc`)

The loop body of `main` is in the source tree; the bodies of
`SufficientStatistics::Update`, `SufficientStatistics::Clear`,
`SufficientStatistics::MaxSequencingErrorRate`, the rate setter and the
tolerance comparison `Equal` are in translation units absent from it, so the
driver is embedded generically over a bundle of those operations. -/

/-- The operations the EM driver of `bam_driver.cc` is written against:
an E-step accumulator update over the fixed site collection, an accumulator
reset, the M-step maximiser, the model's rate getter/setter, and the
tolerance comparison used for convergence. -/
structure EmComponents (M S : Type) where
  update : M → S → S
  clear : S → S
  maxRate : S → ℚ
  setRate : M → ℚ → M
  getRate : M → ℚ
  equal : ℚ → ℚ → Bool

variable {M S : Type}

/-- One non-converged iteration of the `while` loop of `bam_driver.cc`
(lines 78–81): install the candidate rate, clear the accumulator, rerun the
E-step against the updated model, recompute the M-step candidate. The state
is (model, accumulator, current M-step candidate). -/
def emIter (c : EmComponents M S) (x : M × S × ℚ) : M × S × ℚ :=
  let m := c.setRate x.1 x.2.2
  let s := c.update m (c.clear x.2.1)
  (m, s, c.maxRate s)

/-- The `while` loop of `bam_driver.cc` (lines 77–83), with explicit fuel
standing for the number of loop iterations still allowed; the source loop is
unbounded, so termination of the embedding within some fuel is exactly
termination of the source loop. Returns the final model and the iteration
counter `count`. -/
def emLoop (c : EmComponents M S) : ℕ → M × S × ℚ → ℕ → Option (M × ℕ)
  | 0, x, k => if c.equal (c.getRate x.1) x.2.2 then some (x.1, k) else none
  | n + 1, x, k =>
      if c.equal (c.getRate x.1) x.2.2 then some (x.1, k)
      else emLoop c n (emIter c x) (k + 1)

/-- The initial E-step and M-step of `bam_driver.cc` (lines 72, 76) that
precede the loop. -/
def emInit (c : EmComponents M S) (m : M) (s : S) : M × S × ℚ :=
  let s0 := c.update m s
  (m, s0, c.maxRate s0)

/-- The whole EM phase of `main` in `bam_driver.cc`: initial E/M step, then
the convergence loop starting with `count = 0`. -/
def emRun (c : EmComponents M S) (fuel : ℕ) (m : M) (s : S) : Option (M × ℕ) :=
  emLoop c fuel (emInit c m s) 0

/-- The loop's exit condition: the current M-step candidate is `Equal` to the
model's current sequencing-error rate. -/
def emStops (c : EmComponents M S) (x : M × S × ℚ) : Prop :=
  c.equal (c.getRate x.1) x.2.2 = true

/-- The unconditional iteration trace of the loop body. -/
def emTrace (c : EmComponents M S) (x : M × S × ℚ) : ℕ → M × S × ℚ
  | 0 => x
  | n + 1 => emIter c (emTrace c x n)

theorem emTrace_shift (c : EmComponents M S) (x : M × S × ℚ) (n : ℕ) :
    emTrace c (emIter c x) n = emTrace c x (n + 1) := by
  induction n with
  | zero => rfl
  | succ n ih => simp [emTrace, ih]

instance (c : EmComponents M S) (x : M × S × ℚ) : Decidable (emStops c x) := by
  unfold emStops; infer_instance

end NovoMuta

namespace NovoMuta

/-! ### TrioModel layers

`trio_model.h` declares the class; `trio_model.cc` and `utility.cc` are not in
the source tree, so each layer below is modelled from the specification,
keeping the declared names and matrix shapes of the header. Probabilities are
exact rationals. A genotype is an ordered pair of nucleotides (16 states). -/

/-- A diploid genotype: an ordered pair of nucleotide indices, 16 states. -/
abbrev Genotype := Fin 4 × Fin 4

/-- One individual's per-base read counts (A, C, G, T), as in `ReadData`. -/
abbrev ReadData := Fin 4 → ℕ

/-- The per-site read counts of the trio, in order child, mother, father,
as in `ReadDataVector`. -/
structure ReadDataVector where
  child : ReadData
  mother : ReadData
  father : ReadData

/-- The six user-facing model parameters of `TrioModel`. -/
structure TrioParams where
  population_mutation_rate : ℚ
  germline_mutation_rate : ℚ
  somatic_mutation_rate : ℚ
  sequencing_error_rate : ℚ
  dirichlet_dispersion : ℚ
  nucleotide_frequencies : Fin 4 → ℚ

/-- Modelled from the spec: tolerance-based floating-point comparison
(`Equal` of the absent `utility.cc`), with a fixed positive epsilon. -/
def kEpsilon : ℚ := 1 / 10000000000

/-- Modelled from the spec: `Equal(a, b)` holds when the two values differ by
at most the fixed tolerance. -/
def Equal (a b : ℚ) : Bool :=
  decide (|a - b| ≤ kEpsilon)

/-- Modelled from the spec: single-genotype population prior (Pólya-urn /
Dirichlet two-draw form), a Hardy–Weinberg-like combination of nucleotide
frequencies in which homozygous genotypes receive a
population-mutation-rate-weighted correction relative to heterozygous ones.
Body of `TrioModel::PopulationPriorsSingle` is absent from the source tree. -/
def PopulationPriorsSingle (theta : ℚ) (f : Fin 4 → ℚ) (g : Genotype) : ℚ :=
  (theta * f g.1) * (theta * f g.2 + if g.1 = g.2 then 1 else 0) /
    (theta * (theta + 1))

/-- Modelled from the spec: the 256-entry joint population prior, an
outer-style expansion of the single priors over the two parents consistent
with independent assortment. Body of `TrioModel::PopulationPriors` is absent
from the source tree. -/
def PopulationPriors (theta : ℚ) (f : Fin 4 → ℚ) (gm gf : Genotype) : ℚ :=
  PopulationPriorsSingle theta f gm * PopulationPriorsSingle theta f gf

/-- Modelled from the spec: probability that a parent allele `a` is
transmitted as nucleotide `c`; with the no-mutation flag set, only the path
where the transmitted allele did not mutate is counted. Per-allele mutation
probability is the germline rate, split evenly over the three other bases. -/
def germlineTransmitAllele (rate : ℚ) (no_mutation_flag : Bool)
    (c a : Fin 4) : ℚ :=
  if c = a then 1 - rate else if no_mutation_flag then 0 else rate / 3

/-- Modelled from the spec: the mutation-present complement of a single-allele
transmission, counting only paths where the transmitted allele mutated. -/
def germlineTransmitAlleleNum (rate : ℚ) (c a : Fin 4) : ℚ :=
  if c = a then 0 else rate / 3

/-- Modelled from the spec: `TrioModel::GermlineMutation` — probability that a
parent of genotype `g` transmits nucleotide `c`, one of the two alleles being
chosen uniformly; the flag restricts to no-mutation paths. -/
def GermlineMutation (rate : ℚ) (no_mutation_flag : Bool) (c : Fin 4)
    (g : Genotype) : ℚ :=
  (germlineTransmitAllele rate no_mutation_flag c g.1 +
    germlineTransmitAllele rate no_mutation_flag c g.2) / 2

/-- Modelled from the spec: mutation-present counterpart of
`GermlineMutation`, counting only paths where the transmitted allele
mutated. -/
def GermlineMutationNum (rate : ℚ) (c : Fin 4) (g : Genotype) : ℚ :=
  (germlineTransmitAlleleNum rate c g.1 + germlineTransmitAlleleNum rate c g.2) / 2

/-- Modelled from the spec: `TrioModel::GermlineProbabilityMat` — probability
that parents of genotypes `gm`, `gf` produce a child of genotype `c`, the
child drawing its first allele from the mother and its second from the
father; the flag restricts both transmissions to no-mutation paths. -/
def GermlineProbabilityMat (rate : ℚ) (no_mutation_flag : Bool)
    (c gm gf : Genotype) : ℚ :=
  GermlineMutation rate no_mutation_flag c.1 gm *
    GermlineMutation rate no_mutation_flag c.2 gf

/-- Modelled from the spec: the numerator (mutation-present) germline matrix
`germline_probability_mat_num_`, summing the three complementary path
classes in which at least one transmitted allele mutated. -/
def GermlineProbabilityMatNum (rate : ℚ) (c gm gf : Genotype) : ℚ :=
  GermlineMutationNum rate c.1 gm * GermlineMutation rate true c.2 gf +
    GermlineMutation rate true c.1 gm * GermlineMutationNum rate c.2 gf +
    GermlineMutationNum rate c.1 gm * GermlineMutationNum rate c.2 gf

/-- Modelled from the spec: `TrioModel::SomaticMutation` — nucleotide-level
somatic change probability, symmetric in nucleotide identity: no change with
probability `1 - rate`, each other base with probability `rate / 3`. -/
def SomaticMutation (rate : ℚ) (x y : Fin 4) : ℚ :=
  if y = x then 1 - rate else rate / 3

/-- Modelled from the spec: `TrioModel::SomaticProbabilityMat` — the 16×16
genotype-to-genotype somatic transition matrix, the two alleles mutating
independently. -/
def SomaticProbabilityMat (rate : ℚ) (g h : Genotype) : ℚ :=
  SomaticMutation rate g.1 h.1 * SomaticMutation rate g.2 h.2

/-- Rising factorial over the rationals: `a (a+1) ⋯ (a+k-1)`, the exact form
of the log-gamma ratios of the Dirichlet-multinomial evaluation. -/
def ascFactorial (a : ℚ) : ℕ → ℚ
  | 0 => 1
  | k + 1 => ascFactorial a k * (a + k)

/-- Modelled from the spec: `TrioModel::Alphas` — per-genotype Dirichlet
concentration parameters. Alleles of the true genotype get the elevated
concentration, the bases not present get an error-rate-scaled residual
`e / 3`; each row sums to 1. The `dirichlet_dispersion_` field is marked
unused in `trio_model.h` and does not enter. -/
def Alphas (e : ℚ) (g : Genotype) (j : Fin 4) : ℚ :=
  if g.1 = g.2 then (if j = g.1 then 1 - e else e / 3)
  else if j = g.1 ∨ j = g.2 then 1 / 2 - e / 3 else e / 3

/-- Modelled from the spec: `TrioModel::SpectrumProbability` — the
Dirichlet-multinomial probability mass of 4-way counts `x` under
concentration parameters `alpha`, written with exact rising factorials in
place of ratios of gamma functions. -/
def SpectrumProbability (alpha : Fin 4 → ℚ) (x : Fin 4 → ℕ) : ℚ :=
  (((∑ j, x j).factorial : ℚ) / ∏ j, ((x j).factorial : ℚ)) *
    ((∏ j, ascFactorial (alpha j) (x j)) /
      ascFactorial (∑ j, alpha j) (∑ j, x j))

/-- Modelled from the spec: one individual's sequencing likelihood row — the
Dirichlet-multinomial mass of the observed counts for each candidate
genotype. -/
def SequencingProbability (e : ℚ) (x : ReadData) (g : Genotype) : ℚ :=
  SpectrumProbability (Alphas e g) x

/-- The per-site read-dependent data: one 16-entry likelihood row per
individual, as in `ReadDependentData`. -/
structure ReadDependentData where
  child : Genotype → ℚ
  mother : Genotype → ℚ
  father : Genotype → ℚ

/-- Modelled from the spec: `TrioModel::SequencingProbabilityMat` — the 3×16
likelihood matrix for one site, computed from the cached alphas. -/
def SequencingProbabilityMat (alphas : Genotype → Fin 4 → ℚ)
    (data : ReadDataVector) : ReadDependentData where
  child := fun g => SpectrumProbability (alphas g) data.child
  mother := fun g => SpectrumProbability (alphas g) data.mother
  father := fun g => SpectrumProbability (alphas g) data.father

/-- Modelled from the spec: the `TrioModel` object — the six parameters
together with the cached rate-dependent matrices of `trio_model.h` and the
per-site read-dependent data. -/
structure TrioModel where
  population_mutation_rate_ : ℚ
  germline_mutation_rate_ : ℚ
  somatic_mutation_rate_ : ℚ
  sequencing_error_rate_ : ℚ
  dirichlet_dispersion_ : ℚ
  nucleotide_frequencies_ : Fin 4 → ℚ
  alphas_ : Genotype → Fin 4 → ℚ
  population_priors_single_ : Genotype → ℚ
  population_priors_ : Genotype → Genotype → ℚ
  germline_probability_mat_ : Genotype → Genotype → Genotype → ℚ
  germline_probability_mat_num_ : Genotype → Genotype → Genotype → ℚ
  somatic_probability_mat_ : Genotype → Genotype → ℚ
  read_dependent_data_ : ReadDependentData

/-- Modelled from the spec: the `TrioModel` constructor — store the
parameters and eagerly build every rate-dependent matrix; the read-dependent
data starts out zeroed. -/
def mkTrioModel (p : TrioParams) : TrioModel where
  population_mutation_rate_ := p.population_mutation_rate
  germline_mutation_rate_ := p.germline_mutation_rate
  somatic_mutation_rate_ := p.somatic_mutation_rate
  sequencing_error_rate_ := p.sequencing_error_rate
  dirichlet_dispersion_ := p.dirichlet_dispersion
  nucleotide_frequencies_ := p.nucleotide_frequencies
  alphas_ := Alphas p.sequencing_error_rate
  population_priors_single_ :=
    PopulationPriorsSingle p.population_mutation_rate p.nucleotide_frequencies
  population_priors_ :=
    PopulationPriors p.population_mutation_rate p.nucleotide_frequencies
  germline_probability_mat_ := GermlineProbabilityMat p.germline_mutation_rate false
  germline_probability_mat_num_ := GermlineProbabilityMatNum p.germline_mutation_rate
  somatic_probability_mat_ := SomaticProbabilityMat p.somatic_mutation_rate
  read_dependent_data_ := ⟨fun _ => 0, fun _ => 0, fun _ => 0⟩

/-- Modelled from the spec: `TrioModel::set_sequencing_error_rate` — install
the new rate and rebuild exactly the matrices that depend on it (the
Dirichlet alphas). -/
def TrioModel.set_sequencing_error_rate (m : TrioModel) (rate : ℚ) : TrioModel :=
  { m with sequencing_error_rate_ := rate, alphas_ := Alphas rate }

/-- Modelled from the spec: `TrioModel::set_dirichlet_dispersion` — the field
is marked unused in `trio_model.h`, so the setter stores it and rebuilds
nothing. -/
def TrioModel.set_dirichlet_dispersion (m : TrioModel) (dispersion : ℚ) : TrioModel :=
  { m with dirichlet_dispersion_ := dispersion }

/-- Modelled from the spec: `TrioModel::SetReadDependentData` — recompute the
per-site 3×16 likelihood matrix from the cached alphas and store it. -/
def TrioModel.SetReadDependentData (m : TrioModel) (data : ReadDataVector) : TrioModel :=
  { m with read_dependent_data_ := SequencingProbabilityMat m.alphas_ data }

/-- Marginalisation of one individual's likelihood row over the somatic
transition: the likelihood of the data given the true genotype `g`. -/
def somaticFold (som : Genotype → Genotype → ℚ) (lik : Genotype → ℚ)
    (g : Genotype) : ℚ :=
  ∑ h, lik h * som g h

/-- Modelled from the spec: the bottom-up tree peel of
`TrioModel::MutationProbability` — fold each individual's likelihood row
through the somatic matrix, project the child through the given germline
matrix into the parents' joint genotype space, multiply in the parents'
folded rows and the joint population priors, and sum over the 256 joint
parent genotypes. -/
def TreePeel (priors : Genotype → Genotype → ℚ) (som : Genotype → Genotype → ℚ)
    (germ : Genotype → Genotype → Genotype → ℚ) (rdd : ReadDependentData) : ℚ :=
  ∑ gm, ∑ gf,
    (∑ c, somaticFold som rdd.child c * germ c gm gf) *
      somaticFold som rdd.mother gm *
      somaticFold som rdd.father gf *
      priors gm gf

/-- Modelled from the spec: `TrioModel::MutationProbability` — set the
read-dependent data for the site, evaluate the peel once with the
mutation-present germline matrix (numerator) and once unrestricted
(denominator), and return the ratio. -/
def TrioModel.MutationProbability (m : TrioModel) (data : ReadDataVector) : ℚ :=
  let m2 := m.SetReadDependentData data
  TreePeel m2.population_priors_ m2.somatic_probability_mat_
      m2.germline_probability_mat_num_ m2.read_dependent_data_ /
    TreePeel m2.population_priors_ m2.somatic_probability_mat_
      m2.germline_probability_mat_ m2.read_dependent_data_

/-- Modelled from the spec: `TrioModel::Equals` — structural equality of all
six parameters within the floating tolerance of `Equal`. -/
def TrioModel.Equals (a b : TrioModel) : Bool :=
  Equal a.population_mutation_rate_ b.population_mutation_rate_ &&
    Equal a.germline_mutation_rate_ b.germline_mutation_rate_ &&
    Equal a.somatic_mutation_rate_ b.somatic_mutation_rate_ &&
    Equal a.sequencing_error_rate_ b.sequencing_error_rate_ &&
    Equal a.dirichlet_dispersion_ b.dirichlet_dispersion_ &&
    decide (∀ j : Fin 4,
      Equal (a.nucleotide_frequencies_ j) (b.nucleotide_frequencies_ j) = true)

/-- Validity of the model parameters, as required by the data-model
invariants of the spec: rates in the unit interval, non-negative population
mutation rate and nucleotide frequencies. -/
def ValidParams (p : TrioParams) : Prop :=
  0 ≤ p.population_mutation_rate ∧
    0 ≤ p.germline_mutation_rate ∧ p.germline_mutation_rate ≤ 1 ∧
    0 ≤ p.somatic_mutation_rate ∧ p.somatic_mutation_rate ≤ 1 ∧
    0 ≤ p.sequencing_error_rate ∧ p.sequencing_error_rate ≤ 1 ∧
    ∀ j, 0 ≤ p.nucleotide_frequencies j

instance (p : TrioParams) : Decidable (ValidParams p) := by
  unfold ValidParams; infer_instance

/-- A concrete instantiation of the EM components, with the tolerance
comparison `Equal` and an M-step that returns the accumulator itself. -/
def demoComponents : EmComponents ℚ ℚ where
  update := fun _ s => s
  clear := fun s => s
  maxRate := fun s => s
  setRate := fun _ r => r
  getRate := fun m => m
  equal := Equal

/-! ### Supporting lemmas -/

theorem equal_self (a : ℚ) : Equal a a = true := by
  simp [Equal, kEpsilon]

theorem germlineTransmitAllele_split (rate : ℚ) (c a : Fin 4) :
    germlineTransmitAllele rate false c a =
      germlineTransmitAllele rate true c a + germlineTransmitAlleleNum rate c a := by
  unfold germlineTransmitAllele germlineTransmitAlleleNum
  by_cases h : c = a <;> simp [h]

theorem GermlineMutation_split (rate : ℚ) (c : Fin 4) (g : Genotype) :
    GermlineMutation rate false c g =
      GermlineMutation rate true c g + GermlineMutationNum rate c g := by
  unfold GermlineMutation GermlineMutationNum
  rw [germlineTransmitAllele_split rate c g.1, germlineTransmitAllele_split rate c g.2]
  ring

theorem GermlineProbabilityMat_split (rate : ℚ) (c gm gf : Genotype) :
    GermlineProbabilityMat rate true c gm gf +
        GermlineProbabilityMatNum rate c gm gf =
      GermlineProbabilityMat rate false c gm gf := by
  unfold GermlineProbabilityMat GermlineProbabilityMatNum
  rw [GermlineMutation_split rate c.1 gm, GermlineMutation_split rate c.2 gf]
  ring

theorem emLoop_some_of_stops {M S : Type} (c : EmComponents M S) :
    ∀ (n : ℕ) (x : M × S × ℚ) (k : ℕ), emStops c (emTrace c x n) →
      ∃ r, emLoop c n x k = some r := by
  intro n
  induction n with
  | zero =>
      intro x k h
      have h0 : c.equal (c.getRate x.1) x.2.2 = true := h
      exact ⟨(x.1, k), by simp [emLoop, h0]⟩
  | succ n ih =>
      intro x k h
      by_cases h0 : c.equal (c.getRate x.1) x.2.2 = true
      · exact ⟨(x.1, k), by simp [emLoop, h0]⟩
      · have h2 : emStops c (emTrace c (emIter c x) n) := by
          rw [emTrace_shift]; exact h
        obtain ⟨r, hr⟩ := ih (emIter c x) (k + 1) h2
        exact ⟨r, by simp [emLoop, h0, hr]⟩

theorem stops_of_emLoop_some {M S : Type} (c : EmComponents M S) :
    ∀ (n : ℕ) (x : M × S × ℚ) (k : ℕ) (r : M × ℕ), emLoop c n x k = some r →
      ∃ i, emStops c (emTrace c x i) := by
  intro n
  induction n with
  | zero =>
      intro x k r h
      by_cases h0 : c.equal (c.getRate x.1) x.2.2 = true
      · exact ⟨0, h0⟩
      · simp [emLoop, h0] at h
  | succ n ih =>
      intro x k r h
      by_cases h0 : c.equal (c.getRate x.1) x.2.2 = true
      · exact ⟨0, h0⟩
      · simp only [emLoop, h0, if_false] at h
        obtain ⟨i, hi⟩ := ih (emIter c x) (k + 1) r h
        rw [emTrace_shift] at hi
        exact ⟨i + 1, hi⟩

theorem sum_population_priors_single (theta : ℚ) (f : Fin 4 → ℚ)
    (htheta : 0 < theta) (hf : ∑ j, f j = 1) :
    ∑ g : Genotype, PopulationPriorsSingle theta f g = 1 := by
  have hD : theta * (theta + 1) ≠ 0 := by positivity
  unfold PopulationPriorsSingle
  rw [← Finset.sum_div, Fintype.sum_prod_type]
  have inner : ∀ a : Fin 4,
      ∑ b : Fin 4, (theta * f b + if a = b then 1 else 0) = theta + 1 := by
    intro a
    rw [Finset.sum_add_distrib, ← Finset.mul_sum, hf]
    simp
  have key : ∑ a : Fin 4, ∑ b : Fin 4,
      theta * f a * (theta * f b + if a = b then 1 else 0) =
        theta * (theta + 1) := by
    calc ∑ a : Fin 4, ∑ b : Fin 4,
          theta * f a * (theta * f b + if a = b then 1 else 0)
        = ∑ a : Fin 4, theta * f a * (theta + 1) := by
          refine Finset.sum_congr rfl fun a _ => ?_
          rw [← Finset.mul_sum, inner a]
      _ = theta * (theta + 1) := by
          rw [← Finset.sum_mul, ← Finset.mul_sum, hf, mul_one]
  rw [key, div_self hD]

theorem sum_population_priors (theta : ℚ) (f : Fin 4 → ℚ)
    (htheta : 0 < theta) (hf : ∑ j, f j = 1) :
    ∑ gm : Genotype, ∑ gf : Genotype, PopulationPriors theta f gm gf = 1 := by
  have h1 := sum_population_priors_single theta f htheta hf
  unfold PopulationPriors
  calc ∑ gm : Genotype, ∑ gf : Genotype,
        PopulationPriorsSingle theta f gm * PopulationPriorsSingle theta f gf
      = ∑ gm : Genotype, PopulationPriorsSingle theta f gm * 1 := by
        refine Finset.sum_congr rfl fun gm _ => ?_
        rw [← Finset.mul_sum, h1]
    _ = 1 := by
        simp only [mul_one]
        exact h1

theorem ascFactorial_nonneg {a : ℚ} (ha : 0 ≤ a) (k : ℕ) :
    0 ≤ ascFactorial a k := by
  induction k with
  | zero => norm_num [ascFactorial]
  | succ k ih =>
      have hk : (0 : ℚ) ≤ a + k := add_nonneg ha (Nat.cast_nonneg k)
      simp only [ascFactorial]
      exact mul_nonneg ih hk

theorem Alphas_nonneg {e : ℚ} (he0 : 0 ≤ e) (he1 : e ≤ 1) (g : Genotype)
    (j : Fin 4) : 0 ≤ Alphas e g j := by
  unfold Alphas
  split_ifs <;> linarith

theorem SpectrumProbability_nonneg {alpha : Fin 4 → ℚ} (h : ∀ j, 0 ≤ alpha j)
    (x : Fin 4 → ℕ) : 0 ≤ SpectrumProbability alpha x := by
  unfold SpectrumProbability
  have h1 : (0 : ℚ) ≤ ((∑ j, x j).factorial : ℚ) := Nat.cast_nonneg _
  have h2 : (0 : ℚ) ≤ ∏ j, ((x j).factorial : ℚ) :=
    Finset.prod_nonneg fun j _ => Nat.cast_nonneg _
  have h3 : (0 : ℚ) ≤ ∏ j, ascFactorial (alpha j) (x j) :=
    Finset.prod_nonneg fun j _ => ascFactorial_nonneg (h j) _
  have h4 : (0 : ℚ) ≤ ascFactorial (∑ j, alpha j) (∑ j, x j) :=
    ascFactorial_nonneg (Finset.sum_nonneg fun j _ => h j) _
  exact mul_nonneg (div_nonneg h1 h2) (div_nonneg h3 h4)

theorem SomaticMutation_nonneg {rate : ℚ} (h0 : 0 ≤ rate) (h1 : rate ≤ 1)
    (x y : Fin 4) : 0 ≤ SomaticMutation rate x y := by
  unfold SomaticMutation
  split_ifs <;> linarith

theorem SomaticProbabilityMat_nonneg {rate : ℚ} (h0 : 0 ≤ rate) (h1 : rate ≤ 1)
    (g h : Genotype) : 0 ≤ SomaticProbabilityMat rate g h :=
  mul_nonneg (SomaticMutation_nonneg h0 h1 _ _) (SomaticMutation_nonneg h0 h1 _ _)

theorem germlineTransmitAllele_nonneg {rate : ℚ} (h0 : 0 ≤ rate) (h1 : rate ≤ 1)
    (flag : Bool) (c a : Fin 4) : 0 ≤ germlineTransmitAllele rate flag c a := by
  unfold germlineTransmitAllele
  split_ifs <;> linarith

theorem germlineTransmitAlleleNum_nonneg {rate : ℚ} (h0 : 0 ≤ rate)
    (c a : Fin 4) : 0 ≤ germlineTransmitAlleleNum rate c a := by
  unfold germlineTransmitAlleleNum
  split_ifs <;> linarith

theorem GermlineMutation_nonneg {rate : ℚ} (h0 : 0 ≤ rate) (h1 : rate ≤ 1)
    (flag : Bool) (c : Fin 4) (g : Genotype) :
    0 ≤ GermlineMutation rate flag c g :=
  div_nonneg
    (add_nonneg (germlineTransmitAllele_nonneg h0 h1 flag c g.1)
      (germlineTransmitAllele_nonneg h0 h1 flag c g.2)) (by norm_num)

theorem GermlineMutationNum_nonneg {rate : ℚ} (h0 : 0 ≤ rate) (c : Fin 4)
    (g : Genotype) : 0 ≤ GermlineMutationNum rate c g :=
  div_nonneg
    (add_nonneg (germlineTransmitAlleleNum_nonneg h0 c g.1)
      (germlineTransmitAlleleNum_nonneg h0 c g.2)) (by norm_num)

theorem GermlineProbabilityMat_nonneg {rate : ℚ} (h0 : 0 ≤ rate) (h1 : rate ≤ 1)
    (flag : Bool) (c gm gf : Genotype) :
    0 ≤ GermlineProbabilityMat rate flag c gm gf :=
  mul_nonneg (GermlineMutation_nonneg h0 h1 flag c.1 gm)
    (GermlineMutation_nonneg h0 h1 flag c.2 gf)

theorem GermlineProbabilityMatNum_nonneg {rate : ℚ} (h0 : 0 ≤ rate)
    (h1 : rate ≤ 1) (c gm gf : Genotype) :
    0 ≤ GermlineProbabilityMatNum rate c gm gf := by
  unfold GermlineProbabilityMatNum
  have n1 := GermlineMutationNum_nonneg h0 c.1 gm
  have n2 := GermlineMutationNum_nonneg h0 c.2 gf
  have m1 := GermlineMutation_nonneg h0 h1 true c.1 gm
  have m2 := GermlineMutation_nonneg h0 h1 true c.2 gf
  have := mul_nonneg n1 m2
  have := mul_nonneg m1 n2
  have := mul_nonneg n1 n2
  linarith

theorem GermlineProbabilityMatNum_le_full {rate : ℚ} (h0 : 0 ≤ rate)
    (h1 : rate ≤ 1) (c gm gf : Genotype) :
    GermlineProbabilityMatNum rate c gm gf ≤
      GermlineProbabilityMat rate false c gm gf := by
  have hsplit := GermlineProbabilityMat_split rate c gm gf
  have hno := GermlineProbabilityMat_nonneg h0 h1 true c gm gf
  linarith

theorem PopulationPriorsSingle_nonneg {theta : ℚ} {f : Fin 4 → ℚ}
    (h0 : 0 ≤ theta) (hf : ∀ j, 0 ≤ f j) (g : Genotype) :
    0 ≤ PopulationPriorsSingle theta f g := by
  unfold PopulationPriorsSingle
  apply div_nonneg
  · apply mul_nonneg (mul_nonneg h0 (hf _))
    have h2 : 0 ≤ theta * f g.2 := mul_nonneg h0 (hf _)
    split_ifs <;> linarith
  · have : (0 : ℚ) ≤ theta + 1 := by linarith
    exact mul_nonneg h0 this

theorem PopulationPriors_nonneg {theta : ℚ} {f : Fin 4 → ℚ}
    (h0 : 0 ≤ theta) (hf : ∀ j, 0 ≤ f j) (gm gf : Genotype) :
    0 ≤ PopulationPriors theta f gm gf :=
  mul_nonneg (PopulationPriorsSingle_nonneg h0 hf gm)
    (PopulationPriorsSingle_nonneg h0 hf gf)

theorem somaticFold_nonneg {som : Genotype → Genotype → ℚ}
    {lik : Genotype → ℚ} (hsom : ∀ g h, 0 ≤ som g h) (hlik : ∀ g, 0 ≤ lik g)
    (g : Genotype) : 0 ≤ somaticFold som lik g :=
  Finset.sum_nonneg fun h _ => mul_nonneg (hlik h) (hsom g h)

theorem TreePeel_nonneg {priors som : Genotype → Genotype → ℚ}
    {germ : Genotype → Genotype → Genotype → ℚ} {rdd : ReadDependentData}
    (hpriors : ∀ gm gf, 0 ≤ priors gm gf) (hsom : ∀ g h, 0 ≤ som g h)
    (hgerm : ∀ c gm gf, 0 ≤ germ c gm gf)
    (hc : ∀ g, 0 ≤ rdd.child g) (hm : ∀ g, 0 ≤ rdd.mother g)
    (hfa : ∀ g, 0 ≤ rdd.father g) :
    0 ≤ TreePeel priors som germ rdd := by
  refine Finset.sum_nonneg fun gm _ => Finset.sum_nonneg fun gf _ => ?_
  refine mul_nonneg (mul_nonneg (mul_nonneg ?_ ?_) ?_) (hpriors gm gf)
  · exact Finset.sum_nonneg fun c _ =>
      mul_nonneg (somaticFold_nonneg hsom hc c) (hgerm c gm gf)
  · exact somaticFold_nonneg hsom hm gm
  · exact somaticFold_nonneg hsom hfa gf

theorem TreePeel_mono_germ {priors som : Genotype → Genotype → ℚ}
    {germ1 germ2 : Genotype → Genotype → Genotype → ℚ} {rdd : ReadDependentData}
    (hpriors : ∀ gm gf, 0 ≤ priors gm gf) (hsom : ∀ g h, 0 ≤ som g h)
    (hle : ∀ c gm gf, germ1 c gm gf ≤ germ2 c gm gf)
    (hc : ∀ g, 0 ≤ rdd.child g) (hm : ∀ g, 0 ≤ rdd.mother g)
    (hfa : ∀ g, 0 ≤ rdd.father g) :
    TreePeel priors som germ1 rdd ≤ TreePeel priors som germ2 rdd := by
  refine Finset.sum_le_sum fun gm _ => Finset.sum_le_sum fun gf _ => ?_
  refine mul_le_mul_of_nonneg_right ?_ (hpriors gm gf)
  refine mul_le_mul_of_nonneg_right ?_ (somaticFold_nonneg hsom hfa gf)
  refine mul_le_mul_of_nonneg_right ?_ (somaticFold_nonneg hsom hm gm)
  refine Finset.sum_le_sum fun c _ => ?_
  exact mul_le_mul_of_nonneg_left (hle c gm gf) (somaticFold_nonneg hsom hc c)

/-- A representative valid parameter set, used to instantiate theorems with
hypotheses at concrete inputs. -/
def defaultParams : TrioParams where
  population_mutation_rate := 1 / 1000
  germline_mutation_rate := 1 / 50000000
  somatic_mutation_rate := 1 / 50000000
  sequencing_error_rate := 1 / 200
  dirichlet_dispersion := 1000
  nucleotide_frequencies := fun _ => 1 / 4

/-! ### Claim theorems -/

/-- C1: one step of the EM driver loop of `bam_driver.cc`: if the M-step
candidate is `Equal` to the model's current sequencing-error rate the loop
stops with the current model; otherwise the candidate is installed into the
model, the accumulator is cleared, the E-step is rerun against the updated
model and the M-step candidate is recomputed — in exactly that order. -/
theorem em_driver_step {M S : Type} (c : EmComponents M S) (n k : ℕ)
    (x : M × S × ℚ) :
    emLoop c (n + 1) x k =
      if c.equal (c.getRate x.1) x.2.2 then some (x.1, k)
      else
        emLoop c n
          (c.setRate x.1 x.2.2,
            c.update (c.setRate x.1 x.2.2) (c.clear x.2.1),
            c.maxRate (c.update (c.setRate x.1 x.2.2) (c.clear x.2.1)))
          (k + 1) := by
  by_cases h : c.equal (c.getRate x.1) x.2.2 <;> simp [emLoop, emIter, h]

/-- C3: the embedded EM loop is bounded by no iteration cap: across all fuel
values it returns if and only if some iteration of the trace makes the M-step
candidate `Equal` to the model's current rate; and for a fixed-point input,
whose very first M-step candidate is already `Equal` to the initial rate, the
driver returns immediately with the model unchanged and a loop count of 0. -/
theorem em_termination {M S : Type} (c : EmComponents M S) (x : M × S × ℚ) :
    ((∃ fuel r, emLoop c fuel x 0 = some r) ↔ ∃ n, emStops c (emTrace c x n)) ∧
    ∀ (m : M) (s : S),
      c.equal (c.getRate m) (c.maxRate (c.update m s)) = true →
      ∀ fuel, emRun c fuel m s = some (m, 0) := by
  constructor
  · constructor
    · rintro ⟨fuel, r, hr⟩
      exact stops_of_emLoop_some c fuel x 0 r hr
    · rintro ⟨n, hn⟩
      obtain ⟨r, hr⟩ := emLoop_some_of_stops c n x 0 hn
      exact ⟨n, r, hr⟩
  · intro m s h fuel
    cases fuel <;> simp [emRun, emInit, emLoop, h]

/-- Witness for C3: with concrete components whose M-step returns the current
rate, the driver stops at once with zero loop iterations. -/
theorem em_termination_witness :
    emRun demoComponents 7 ((1 : ℚ) / 2) ((1 : ℚ) / 2) = some (1 / 2, 0) :=
  (em_termination demoComponents (((1 : ℚ) / 2), ((1 : ℚ) / 2), ((1 : ℚ) / 2))).2
    (1 / 2) (1 / 2) (equal_self ((1 : ℚ) / 2)) 7

/-- C6: for a valid parameter set (positive population mutation rate,
nucleotide frequencies summing to 1) the 16-entry single-genotype prior row
and the 256-entry joint prior row of the constructed model each sum to 1
within an absolute tolerance of `1e-9`. -/
theorem population_priors_sum_to_one (p : TrioParams)
    (htheta : 0 < p.population_mutation_rate)
    (hf : ∑ j, p.nucleotide_frequencies j = 1) :
    |(∑ g : Genotype, (mkTrioModel p).population_priors_single_ g) - 1| ≤
        1 / 1000000000 ∧
    |(∑ gm : Genotype, ∑ gf : Genotype,
        (mkTrioModel p).population_priors_ gm gf) - 1| ≤ 1 / 1000000000 := by
  have e1 : ∑ g : Genotype, (mkTrioModel p).population_priors_single_ g = 1 :=
    sum_population_priors_single p.population_mutation_rate
      p.nucleotide_frequencies htheta hf
  have e2 : ∑ gm : Genotype, ∑ gf : Genotype,
      (mkTrioModel p).population_priors_ gm gf = 1 :=
    sum_population_priors p.population_mutation_rate
      p.nucleotide_frequencies htheta hf
  rw [e1, e2]
  norm_num

/-- Witness for C6: the prior rows of the representative parameter set sum to
1 within tolerance. -/
theorem population_priors_sum_to_one_witness :
    |(∑ g : Genotype, (mkTrioModel defaultParams).population_priors_single_ g) - 1| ≤
      1 / 1000000000 :=
  (population_priors_sum_to_one defaultParams (by norm_num [defaultParams])
    (by norm_num [defaultParams, Fin.sum_univ_four])).1

/-- C4: for every valid parameter set and every site read-count input (the
per-base counts are naturals, hence non-negative), `MutationProbability` of
the constructed model lies in the closed interval [0, 1]. -/
theorem mutation_probability_in_unit_interval (p : TrioParams)
    (hp : ValidParams p) (data : ReadDataVector) :
    0 ≤ (mkTrioModel p).MutationProbability data ∧
      (mkTrioModel p).MutationProbability data ≤ 1 := by
  obtain ⟨htheta, hg0, hg1, hs0, hs1, he0, he1, hfreq⟩ := hp
  have hMP : (mkTrioModel p).MutationProbability data =
      TreePeel
          (PopulationPriors p.population_mutation_rate p.nucleotide_frequencies)
          (SomaticProbabilityMat p.somatic_mutation_rate)
          (GermlineProbabilityMatNum p.germline_mutation_rate)
          (SequencingProbabilityMat (Alphas p.sequencing_error_rate) data) /
        TreePeel
          (PopulationPriors p.population_mutation_rate p.nucleotide_frequencies)
          (SomaticProbabilityMat p.somatic_mutation_rate)
          (GermlineProbabilityMat p.germline_mutation_rate false)
          (SequencingProbabilityMat (Alphas p.sequencing_error_rate) data) := rfl
  rw [hMP]
  have hal : ∀ g j, 0 ≤ Alphas p.sequencing_error_rate g j :=
    fun g j => Alphas_nonneg he0 he1 g j
  have hc : ∀ g, 0 ≤ (SequencingProbabilityMat
      (Alphas p.sequencing_error_rate) data).child g :=
    fun g => SpectrumProbability_nonneg (hal g) _
  have hm : ∀ g, 0 ≤ (SequencingProbabilityMat
      (Alphas p.sequencing_error_rate) data).mother g :=
    fun g => SpectrumProbability_nonneg (hal g) _
  have hfa : ∀ g, 0 ≤ (SequencingProbabilityMat
      (Alphas p.sequencing_error_rate) data).father g :=
    fun g => SpectrumProbability_nonneg (hal g) _
  have hpriors : ∀ gm gf, 0 ≤ PopulationPriors p.population_mutation_rate
      p.nucleotide_frequencies gm gf :=
    fun gm gf => PopulationPriors_nonneg htheta hfreq gm gf
  have hsom : ∀ g h, 0 ≤ SomaticProbabilityMat p.somatic_mutation_rate g h :=
    fun g h => SomaticProbabilityMat_nonneg hs0 hs1 g h
  have hnum : ∀ c gm gf, 0 ≤ GermlineProbabilityMatNum
      p.germline_mutation_rate c gm gf :=
    fun c gm gf => GermlineProbabilityMatNum_nonneg hg0 hg1 c gm gf
  have hfull : ∀ c gm gf, 0 ≤ GermlineProbabilityMat
      p.germline_mutation_rate false c gm gf :=
    fun c gm gf => GermlineProbabilityMat_nonneg hg0 hg1 false c gm gf
  have hle : ∀ c gm gf, GermlineProbabilityMatNum p.germline_mutation_rate c gm gf ≤
      GermlineProbabilityMat p.germline_mutation_rate false c gm gf :=
    fun c gm gf => GermlineProbabilityMatNum_le_full hg0 hg1 c gm gf
  have hN := TreePeel_nonneg hpriors hsom hnum hc hm hfa
  have hD := TreePeel_nonneg hpriors hsom hfull hc hm hfa
  have hND := TreePeel_mono_germ hpriors hsom hle hc hm hfa
  constructor
  · exact div_nonneg hN hD
  · rcases eq_or_lt_of_le hD with h | h
    · rw [← h, div_zero]
      norm_num
    · exact (div_le_one h).mpr hND

/-- Witness for C4: the mutation probability at the representative valid
parameter set and a site with one read of each base per individual lies in
[0, 1]. -/
theorem mutation_probability_in_unit_interval_witness :
    0 ≤ (mkTrioModel defaultParams).MutationProbability
        ⟨fun _ => 1, fun _ => 1, fun _ => 1⟩ ∧
      (mkTrioModel defaultParams).MutationProbability
        ⟨fun _ => 1, fun _ => 1, fun _ => 1⟩ ≤ 1 :=
  mutation_probability_in_unit_interval defaultParams
    (by norm_num [ValidParams, defaultParams])
    ⟨fun _ => 1, fun _ => 1, fun _ => 1⟩

/-- C2: each row of the simulation counts file with second column `m` and
third column `n` yields the empirical probability `m / (m + n)`, defined as 0
when `m + n = 0`; the rows `(0, 10, 90)` and `(1, 0, 0)` yield `0.1` and
`0.0`. -/
theorem counts_probability_rows :
    (∀ i m n : ℤ, processLine [Token.num i, Token.num m, Token.num n] =
      if m + n = 0 then 0 else (m : ℚ) / ((m : ℚ) + (n : ℚ))) ∧
    processLine [Token.num 0, Token.num 10, Token.num 90] = 1 / 10 ∧
    processLine [Token.num 1, Token.num 0, Token.num 0] = 0 := by
  refine ⟨fun i m n => rfl, ?_, rfl⟩
  norm_num [processLine, parseLine, countsProbability]

/-- C5: for every germline mutation rate and all genotypes the no-mutation
and the numerator (mutation-present) germline matrices sum elementwise to the
unrestricted germline transition matrix. -/
theorem germline_split_reconstructs (rate : ℚ) (c gm gf : Genotype) :
    GermlineProbabilityMat rate true c gm gf +
        GermlineProbabilityMatNum rate c gm gf =
      GermlineProbabilityMat rate false c gm gf :=
  GermlineProbabilityMat_split rate c gm gf

/-- C7: `SetReadDependentData` is idempotent — calling it twice in a row with
the same site leaves the model in the same state as calling it once, and in
particular the subsequent `MutationProbability` output is identical. -/
theorem set_read_dependent_data_idempotent (m : TrioModel) (d : ReadDataVector) :
    (m.SetReadDependentData d).SetReadDependentData d = m.SetReadDependentData d ∧
    ((m.SetReadDependentData d).SetReadDependentData d).MutationProbability d =
      (m.SetReadDependentData d).MutationProbability d := by
  exact ⟨rfl, rfl⟩

/-- C8: two `TrioModel` objects constructed from identical parameters are
`Equals`: every parameter comparison is within the floating tolerance. -/
theorem equals_of_identical_parameters (p : TrioParams) :
    (mkTrioModel p).Equals (mkTrioModel p) = true := by
  simp [TrioModel.Equals, equal_self]

/-- C9 counterexample: a line whose third field is missing fails numeric
parsing yet keeps the successfully parsed second field, so its emitted
probability is `7 / 7 = 1`, not 0. -/
theorem parse_failure_not_all_zero :
    ¬ ∀ ts : List Token, lineParses ts = false → processLine ts = 0 := by
  intro h
  have h2 := h [Token.num 5, Token.num 7] rfl
  norm_num [processLine, parseLine, countsProbability] at h2

/-- C9 (amended): the utility emits exactly one probability per input line in
input order; a line whose first extraction fails yields all-zero counts and
probability 0, while a later failure only zeroes the fields from the failure
point on, the earlier fields keeping their parsed values. -/
theorem one_output_per_line (lines : List (List Token)) :
    (processFile lines).length = lines.length ∧
    (∀ ts, firstFieldFails ts = true →
      parseLine ts = (0, 0, 0) ∧ processLine ts = 0) ∧
    (∀ i m : ℤ, parseLine [Token.num i, Token.num m] = (i, m, 0)) := by
  refine ⟨List.length_map _ _, ?_, fun i m => rfl⟩
  intro ts h
  cases ts with
  | nil => exact ⟨rfl, rfl⟩
  | cons t rest =>
      cases t with
      | num z => simp [firstFieldFails] at h
      | bad => exact ⟨rfl, rfl⟩

/-- Witness for C9 (amended): a fully non-numeric line produces probability 0. -/
theorem one_output_per_line_witness : processLine [Token.bad] = 0 :=
  ((one_output_per_line []).2.1 [Token.bad] rfl).2

/-- C10: `set_dirichlet_dispersion` stores the new dispersion and changes
nothing else: every other parameter field, every cached matrix and the
read-dependent data are untouched, and `MutationProbability` is unchanged. -/
theorem set_dirichlet_dispersion_frame (m : TrioModel) (disp : ℚ)
    (data : ReadDataVector) :
    (m.set_dirichlet_dispersion disp).dirichlet_dispersion_ = disp ∧
    (m.set_dirichlet_dispersion disp).population_mutation_rate_ =
      m.population_mutation_rate_ ∧
    (m.set_dirichlet_dispersion disp).germline_mutation_rate_ =
      m.germline_mutation_rate_ ∧
    (m.set_dirichlet_dispersion disp).somatic_mutation_rate_ =
      m.somatic_mutation_rate_ ∧
    (m.set_dirichlet_dispersion disp).sequencing_error_rate_ =
      m.sequencing_error_rate_ ∧
    (m.set_dirichlet_dispersion disp).nucleotide_frequencies_ =
      m.nucleotide_frequencies_ ∧
    (m.set_dirichlet_dispersion disp).alphas_ = m.alphas_ ∧
    (m.set_dirichlet_dispersion disp).population_priors_single_ =
      m.population_priors_single_ ∧
    (m.set_dirichlet_dispersion disp).population_priors_ = m.population_priors_ ∧
    (m.set_dirichlet_dispersion disp).germline_probability_mat_ =
      m.germline_probability_mat_ ∧
    (m.set_dirichlet_dispersion disp).germline_probability_mat_num_ =
      m.germline_probability_mat_num_ ∧
    (m.set_dirichlet_dispersion disp).somatic_probability_mat_ =
      m.somatic_probability_mat_ ∧
    (m.set_dirichlet_dispersion disp).read_dependent_data_ =
      m.read_dependent_data_ ∧
    (m.set_dirichlet_dispersion disp).MutationProbability data =
      m.MutationProbability data := by
  exact ⟨rfl, rfl, rfl, rfl, rfl, rfl, rfl, rfl, rfl, rfl, rfl, rfl, rfl, rfl⟩

end NovoMuta
